import Mathlib

/-
Verification of the GLStream stream-buffer component
(src/common/gl/stream_buffer.cpp) against its design specification.

The C++ classes are shallowly embedded as Lean structures and pure
functions.  Driver calls (glFenceSync, glClientWaitSync, glDeleteSync,
glFlushMappedBufferRange, glBufferSubData, glBufferData, glBindBuffer)
are recorded in an explicit event list.  Machine integers (u32) are
modelled as Nat: every quantity handled by this code is bounded by the
buffer capacity plus one alignment, far below 2^32, so no wraparound
can occur on the modelled paths.

Ghost instrumentation (fields that are not C++ state, marked below):
  nextFenceId - fresh names for fences, so a fence records which call
                created it;
  wrapped     - set once the wraparound branch of AllocateSpace runs;
  granted     - number of bytes the last Map handed out (the caller
                contract permits Unmap of at most this much);
  ok          - starts true, forced false whenever a DebugAssert of the
                source would fail, an array access would be out of
                bounds, or glClientWaitSync would be invoked on a null
                sync object.
-/

namespace GLStream

/-- Pointers returned by Map: either into the CPU staging vector of the
naive backends (m_cpu_buffer.data() + offset) or into the persistently
mapped GPU allocation (m_mapped_ptr + offset). -/
inductive Ptr where
  | cpuStaging (offset : Nat)
  | gpuMapped (offset : Nat)
deriving DecidableEq, Repr

/-- MappingResult of StreamBuffer::Map.  The struct lives in the
header (not part of the sources); fields are taken in the order the
cpp constructs them: pointer, byte offset, offset in alignment units,
contiguous space in alignment units. -/
structure MappingResult where
  pointer : Ptr
  buffer_offset : Nat
  index_aligned : Nat
  space_aligned : Nat
deriving DecidableEq, Repr

/-- One recorded OpenGL driver call.  Fences are identified by the ghost
id of the sync object; clientWaitSync and deleteSync record the slot
content at call time (none models a null GLsync argument). -/
inductive GLCall where
  | fenceSync (id : Nat)
  | clientWaitSync (sync : Option Nat)
  | deleteSync (sync : Option Nat)
  | flushMappedBufferRange (offset length : Nat)
  | bindBuffer
  | bufferSubData (length : Nat)
  | bufferData (length : Nat)
deriving DecidableEq, Repr

/-- Uploads are the two calls that transfer staging data to the GPU
buffer object. -/
def GLCall.isUpload : GLCall → Bool
  | .bufferSubData _ => true
  | .bufferData _ => true
  | _ => false

/-- Fence creation calls. -/
def GLCall.isFence : GLCall → Bool
  | .fenceSync _ => true
  | _ => false

/-- Fence wait calls. -/
def GLCall.isWait : GLCall → Bool
  | .clientWaitSync _ => true
  | _ => false

end GLStream

namespace Common

/-- Modelled from the spec: Common::AlignUp lives in common/align.h,
which is not among the provided sources.  Spec 4.4: Map aligns
position up to the requested alignment, i.e. rounds it to the next
multiple of the alignment. -/
def alignUp (value alignment : Nat) : Nat :=
  ((value + alignment - 1) / alignment) * alignment

end Common

namespace GLStream

/-- SyncingStreamBuffer::NUM_SYNC_POINTS. -/
def NUM_SYNC_POINTS : Nat := 16

/-- State of SyncingStreamBuffer / BufferStorageStreamBuffer.
m_sync_objects is the fence array; indices outside [0,16) always read
none (a C++ access there would be out of bounds and clears ok).
nextFenceId, wrapped, granted and ok are ghost instrumentation, see the
header comment. -/
structure SyncState where
  m_size : Nat
  m_bytes_per_block : Nat
  m_position : Nat
  m_used_block_index : Nat
  m_available_block_index : Nat
  m_sync_objects : Nat → Option Nat
  m_coherent : Bool
  nextFenceId : Nat
  wrapped : Bool
  granted : Nat
  ok : Bool

namespace SyncingStreamBuffer

/-- GetSyncIndexForOffset: offset / m_bytes_per_block. -/
def getSyncIndexForOffset (st : SyncState) (offset : Nat) : Nat :=
  offset / st.m_bytes_per_block

/-- Write one slot of the fence array. -/
def setSlot (st : SyncState) (i : Nat) (v : Option Nat) : SyncState :=
  { st with m_sync_objects := fun j => if j = i then v else st.m_sync_objects j }

/-- One iteration of the AddSyncsForOffset loop body:
DebugAssert(!m_sync_objects[m_used_block_index]);
m_sync_objects[m_used_block_index] = glFenceSync(...);
m_used_block_index++. -/
def addSyncsStep (st : SyncState) : SyncState × GLCall :=
  let i := st.m_used_block_index
  let okNow := st.ok && decide (i < NUM_SYNC_POINTS) && (st.m_sync_objects i).isNone
  ({ setSlot st i (some st.nextFenceId) with
      m_used_block_index := i + 1
      nextFenceId := st.nextFenceId + 1
      ok := okNow },
   GLCall.fenceSync st.nextFenceId)

/-- Iterate addSyncsStep n times. -/
def addSyncsLoop : SyncState → Nat → SyncState × List GLCall
  | st, 0 => (st, [])
  | st, n + 1 =>
    let r1 := addSyncsStep st
    let r2 := addSyncsLoop r1.1 n
    (r2.1, r1.2 :: r2.2)

/-- AddSyncsForOffset: the loop runs while m_used_block_index < end,
hence exactly end - m_used_block_index iterations. -/
def addSyncsForOffset (st : SyncState) (offset : Nat) : SyncState × List GLCall :=
  addSyncsLoop st (getSyncIndexForOffset st offset - st.m_used_block_index)

/-- WaitForSync on the fence array slot i:
glClientWaitSync(sync, ...); glDeleteSync(sync); sync = nullptr.
ok is cleared when the slot holds no fence (waiting a null sync) or
when i is outside the array. -/
def waitForSyncSlot (st : SyncState) (i : Nat) : SyncState × List GLCall :=
  let s := st.m_sync_objects i
  ({ setSlot st i none with
      ok := st.ok && decide (i < NUM_SYNC_POINTS) && s.isSome },
   [GLCall.clientWaitSync s, GLCall.deleteSync s])

/-- One iteration of the EnsureSyncsWaitedForOffset loop body:
DebugAssert(m_sync_objects[m_available_block_index]) (folded into the
ok update of waitForSyncSlot); WaitForSync(...);
m_available_block_index++. -/
def ensureStep (st : SyncState) : SyncState × List GLCall :=
  let r := waitForSyncSlot st st.m_available_block_index
  ({ r.1 with m_available_block_index := st.m_available_block_index + 1 }, r.2)

/-- Iterate ensureStep n times. -/
def ensureLoop : SyncState → Nat → SyncState × List GLCall
  | st, 0 => (st, [])
  | st, n + 1 =>
    let r1 := ensureStep st
    let r2 := ensureLoop r1.1 n
    (r2.1, r1.2 ++ r2.2)

/-- EnsureSyncsWaitedForOffset: end = min(index(offset) + 1, 16); the
loop runs while m_available_block_index < end. -/
def ensureSyncsWaitedForOffset (st : SyncState) (offset : Nat) : SyncState × List GLCall :=
  ensureLoop st
    (min (getSyncIndexForOffset st offset + 1) NUM_SYNC_POINTS - st.m_available_block_index)

/-- AllocateSpace, the core ring-buffer algorithm, translated branch by
branch from the source. -/
def allocateSpace (st : SyncState) (size : Nat) : SyncState × List GLCall :=
  let r1 := addSyncsForOffset st st.m_position
  let r2 := ensureSyncsWaitedForOffset r1.1 (r1.1.m_position + size)
  if r2.1.m_position + size > r2.1.m_size then
    let r3 := addSyncsForOffset r2.1 r2.1.m_size
    let st4 : SyncState := { r3.1 with m_position := 0 }
    let r4 := waitForSyncSlot st4 0
    let st6 : SyncState := { r4.1 with m_available_block_index := 1, wrapped := true }
    let r5 := ensureSyncsWaitedForOffset st6 size
    ({ r5.1 with m_used_block_index := 0 }, r1.2 ++ r2.2 ++ r3.2 ++ r4.2 ++ r5.2)
  else
    (r2.1, r1.2 ++ r2.2)

/-- Destructor loop body, i counting from m_available_block_index up to
and including m_used_block_index: DebugAssert(m_sync_objects[i]);
glDeleteSync(m_sync_objects[i]).  The Bool result records whether every
assert held and every access was in bounds. -/
def destructorLoop (st : SyncState) : Nat → Nat → List GLCall × Bool
  | _, 0 => ([], true)
  | i, n + 1 =>
    let s := st.m_sync_objects i
    let r := destructorLoop st (i + 1) n
    (GLCall.deleteSync s :: r.1, decide (i < NUM_SYNC_POINTS) && s.isSome && r.2)

/-- SyncingStreamBuffer::~SyncingStreamBuffer: the loop runs for i in
[m_available_block_index, m_used_block_index], i.e.
m_used_block_index + 1 - m_available_block_index iterations. -/
def destructorCalls (st : SyncState) : List GLCall × Bool :=
  destructorLoop st st.m_available_block_index
    (st.m_used_block_index + 1 - st.m_available_block_index)

/-- Fences still alive in the fence array. -/
def outstandingFences (st : SyncState) : List Nat :=
  (List.range NUM_SYNC_POINTS).filterMap st.m_sync_objects

end SyncingStreamBuffer

/-- State after the SyncingStreamBuffer / BufferStorageStreamBuffer
constructors: position 0, used block 0, available block
NUM_SYNC_POINTS, empty fence array, bytes per block rounded up. -/
def initState (size : Nat) (coherent : Bool) : SyncState :=
  { m_size := size
    m_bytes_per_block := (size + NUM_SYNC_POINTS - 1) / NUM_SYNC_POINTS
    m_position := 0
    m_used_block_index := 0
    m_available_block_index := NUM_SYNC_POINTS
    m_sync_objects := fun _ => none
    m_coherent := coherent
    nextFenceId := 0
    wrapped := false
    granted := 0
    ok := true }

namespace BufferStorageStreamBuffer

open SyncingStreamBuffer

/-- BufferStorageStreamBuffer::Map.  Returns the new state, the
MappingResult and the driver calls issued.  The trailing DebugAssert
((m_position + min_size) <= (m_available_block_index *
m_bytes_per_block)) is folded into ok; the ghost granted field records
the bytes the caller may now write (space_aligned * alignment). -/
def map (st : SyncState) (alignment min_size : Nat) :
    SyncState × MappingResult × List GLCall :=
  let st0 := if st.m_position > 0 then
    { st with m_position := Common.alignUp st.m_position alignment } else st
  let r := allocateSpace st0 min_size
  let st1 := r.1
  let st2 := { st1 with
    ok := st1.ok &&
      decide (st1.m_position + min_size ≤
        st1.m_available_block_index * st1.m_bytes_per_block) }
  let free_space_in_block :=
    st1.m_available_block_index * st1.m_bytes_per_block - st1.m_position
  ({ st2 with granted := free_space_in_block / alignment * alignment },
   ⟨Ptr.gpuMapped st1.m_position, st1.m_position,
    st1.m_position / alignment, free_space_in_block / alignment⟩,
   r.2)

/-- BufferStorageStreamBuffer::Unmap: DebugAssert((m_position +
used_size) <= m_size) (folded into ok); if non-coherent, Bind() and
glFlushMappedBufferRange(target, m_position, used_size); then
m_position += used_size. -/
def unmap (st : SyncState) (used_size : Nat) : SyncState × List GLCall :=
  let st0 := { st with
    ok := st.ok && decide (st.m_position + used_size ≤ st.m_size) }
  let es := if st.m_coherent then []
    else [GLCall.bindBuffer, GLCall.flushMappedBufferRange st.m_position used_size]
  ({ st0 with
      m_position := st0.m_position + used_size
      granted := st0.granted - used_size }, es)

end BufferStorageStreamBuffer

/-- State of the two naive backends: only the fixed capacity (the CPU
staging vector m_cpu_buffer has that same size and is addressed through
Ptr.cpuStaging). -/
structure NaiveState where
  m_size : Nat
deriving DecidableEq, Repr

namespace BufferSubDataStreamBuffer

/-- BufferSubDataStreamBuffer::Map: always the staging buffer start,
offset 0, m_size / alignment elements; no state change, no driver
call. -/
def map (st : NaiveState) (alignment min_size : Nat) :
    NaiveState × MappingResult × List GLCall :=
  (st, ⟨Ptr.cpuStaging 0, 0, 0, st.m_size / alignment⟩, [])

/-- BufferSubDataStreamBuffer::Unmap: early return when used_size is 0,
otherwise bind and glBufferSubData of exactly used_size bytes. -/
def unmap (st : NaiveState) (used_size : Nat) : NaiveState × List GLCall :=
  if used_size = 0 then (st, [])
  else (st, [GLCall.bindBuffer, GLCall.bufferSubData used_size])

end BufferSubDataStreamBuffer

namespace BufferDataStreamBuffer

/-- BufferDataStreamBuffer::Map: identical shape to the reupload
variant. -/
def map (st : NaiveState) (alignment min_size : Nat) :
    NaiveState × MappingResult × List GLCall :=
  (st, ⟨Ptr.cpuStaging 0, 0, 0, st.m_size / alignment⟩, [])

/-- BufferDataStreamBuffer::Unmap: early return when used_size is 0,
otherwise bind and glBufferData of used_size bytes (orphaning). -/
def unmap (st : NaiveState) (used_size : Nat) : NaiveState × List GLCall :=
  if used_size = 0 then (st, [])
  else (st, [GLCall.bindBuffer, GLCall.bufferData used_size])

end BufferDataStreamBuffer

/-- Driver environment for the construction paths: which buffer-storage
capability flags are set, and whether the individual driver calls
succeed (an error is picked up by the glGetError check; a failed
glMapBufferRange returns null). -/
structure GLDriver where
  GLAD_GL_VERSION_4_4 : Bool
  GLAD_GL_ARB_buffer_storage : Bool
  GLAD_GL_EXT_buffer_storage : Bool
  bufferDataSucceeds : Bool
  bufferStorageSucceeds : Bool
  mapBufferRangeSucceeds : Bool
deriving DecidableEq, Repr

/-- Which concrete backend an instance is. -/
inductive BackendKind where
  | persistentMapped
  | bufferSubData
  | bufferData
deriving DecidableEq, Repr

/-- Outcome of a Create function: an instance, an empty unique_ptr
(return {}), or a fired Assert (process abort). -/
inductive CreateResult (α : Type) where
  | ok (value : α)
  | empty
  | assertAbort
deriving DecidableEq, Repr

namespace BufferSubDataStreamBuffer

/-- BufferSubDataStreamBuffer::Create: glBufferData then error check;
on error delete the buffer and return {}. -/
def create (d : GLDriver) (size : Nat) : CreateResult BackendKind :=
  if d.bufferDataSucceeds then .ok .bufferSubData else .empty

end BufferSubDataStreamBuffer

namespace BufferDataStreamBuffer

/-- BufferDataStreamBuffer::Create: glBufferData then error check; on
error delete the buffer and return {}. -/
def create (d : GLDriver) (size : Nat) : CreateResult BackendKind :=
  if d.bufferDataSucceeds then .ok .bufferData else .empty

end BufferDataStreamBuffer

namespace BufferStorageStreamBuffer

/-- BufferStorageStreamBuffer::Create: glBufferStorage (or the EXT
variant) under the capability checks, glGetError, on error return {};
then glMapBufferRange with Assert(mapped_ptr): a null mapping aborts
instead of returning {}. -/
def create (d : GLDriver) (size : Nat) : CreateResult BackendKind :=
  let storageError :=
    if d.GLAD_GL_VERSION_4_4 || d.GLAD_GL_ARB_buffer_storage then
      !d.bufferStorageSucceeds
    else if d.GLAD_GL_EXT_buffer_storage then
      !d.bufferStorageSucceeds
    else false
  if storageError then .empty
  else if d.mapBufferRangeSucceeds then .ok .persistentMapped
  else .assertAbort

end BufferStorageStreamBuffer

namespace StreamBuffer

/-- StreamBuffer::Create, the factory: try the persistent-mapped
backend when any buffer-storage capability is present, otherwise (or
when that Create returned an empty pointer) fall through to
BufferDataStreamBuffer (the vendor branch is compiled out with #if 0 in
the source). -/
def create (d : GLDriver) (size : Nat) : CreateResult BackendKind :=
  if d.GLAD_GL_VERSION_4_4 || d.GLAD_GL_ARB_buffer_storage
      || d.GLAD_GL_EXT_buffer_storage then
    match BufferStorageStreamBuffer.create d size with
    | .ok b => .ok b
    | .assertAbort => .assertAbort
    | .empty => BufferDataStreamBuffer.create d size
  else
    BufferDataStreamBuffer.create d size

end StreamBuffer

/-- Reachable states of the persistent-mapped backend: construction
followed by Map and Unmap calls obeying the caller contract of spec
4.1 and 6 (min_size positive and at most the capacity; Unmap commits
at most what the last Map granted and the source DebugAssert
m_position + used_size <= m_size holds) with a positive alignment
dividing the block size, as at every call site of this backend
(power-of-two alignments into power-of-two capacities). -/
inductive Reach : SyncState → Prop where
  | init (size : Nat) (coherent : Bool) : 0 < size → Reach (initState size coherent)
  | mapStep {st : SyncState} (alignment min_size : Nat) : Reach st →
      0 < alignment → alignment ∣ st.m_bytes_per_block →
      0 < min_size → min_size ≤ st.m_size →
      Reach (BufferStorageStreamBuffer.map st alignment min_size).1
  | unmapStep {st : SyncState} (used_size : Nat) : Reach st →
      used_size ≤ st.granted → st.m_position + used_size ≤ st.m_size →
      Reach (BufferStorageStreamBuffer.unmap st used_size).1

/-- One Map(16, 65536) / Unmap(65536) round on the persistent-mapped
backend (the scenario of spec 8, last bullet). -/
def roundBig (st : SyncState) : SyncState :=
  (BufferStorageStreamBuffer.unmap
    (BufferStorageStreamBuffer.map st 16 65536).1 65536).1

/-- State of the 1 MiB coherent buffer after n full Map/Unmap rounds of
65536 bytes. -/
def bigTrace : Nat → SyncState
  | 0 => initState 1048576 true
  | n + 1 => roundBig (bigTrace n)

/-- One Map(16, 4096) / Unmap(4096) round (the scenario of spec 8,
second-to-last bullet). -/
def roundSmall (st : SyncState) : SyncState :=
  (BufferStorageStreamBuffer.unmap
    (BufferStorageStreamBuffer.map st 16 4096).1 4096).1

/-- State of the 1 MiB coherent buffer after n full Map/Unmap rounds of
4096 bytes. -/
def smallTrace : Nat → SyncState
  | 0 => initState 1048576 true
  | n + 1 => roundSmall (smallTrace n)

/-- A reachable state of a capacity-100 buffer (16 blocks of 7 bytes):
Map(1,3), Unmap(3), then Map(1,98), whose wraparound waits a fence that
was never inserted. -/
def cap100Trace : SyncState :=
  (BufferStorageStreamBuffer.map
    (BufferStorageStreamBuffer.unmap
      (BufferStorageStreamBuffer.map (initState 100 true) 1 3).1 3).1
    1 98).1

/-- Driver calls of the third call (Map(1,98)) of cap100Trace. -/
def cap100Events : List GLCall :=
  (BufferStorageStreamBuffer.map
    (BufferStorageStreamBuffer.unmap
      (BufferStorageStreamBuffer.map (initState 100 true) 1 3).1 3).1
    1 98).2.2

/-- Index-level invariant of the ring buffer, for every capacity. -/
def InvBase (st : SyncState) : Prop :=
  0 < st.m_size ∧
  st.m_bytes_per_block = (st.m_size + NUM_SYNC_POINTS - 1) / NUM_SYNC_POINTS ∧
  st.m_used_block_index < st.m_available_block_index ∧
  st.m_available_block_index ≤ NUM_SYNC_POINTS ∧
  (st.wrapped = false → st.m_available_block_index = NUM_SYNC_POINTS) ∧
  st.m_position ≤ st.m_size ∧
  st.m_position + st.granted ≤ st.m_available_block_index * st.m_bytes_per_block

/-- Fence-array invariant: every DebugAssert held, no null sync was
ever waited, and the live fence slots are exactly [0, used) together
with [available, 16) after a wraparound. -/
def SlotInv (st : SyncState) : Prop :=
  st.ok = true ∧
  ∀ i, i < NUM_SYNC_POINTS →
    ((st.m_sync_objects i).isSome ↔
      (i < st.m_used_block_index ∨
       (st.wrapped = true ∧ st.m_available_block_index ≤ i)))

end GLStream

open GLStream

/-- The two-round state of the 1 MiB scenario is reachable. -/
theorem reach_bigTrace2 : Reach (bigTrace 2) := by
  have h0 : Reach (bigTrace 0) := Reach.init 1048576 true (by decide)
  have h1 : Reach (bigTrace 1) :=
    Reach.unmapStep 65536
      (Reach.mapStep 16 65536 h0 (by decide) (by decide) (by decide) (by decide))
      (by decide) (by decide)
  exact Reach.unmapStep 65536
      (Reach.mapStep 16 65536 h1 (by decide) (by decide) (by decide) (by decide))
      (by decide) (by decide)

/-- The capacity-100 scenario state is reachable. -/
theorem reach_cap100 : Reach cap100Trace :=
  Reach.mapStep 1 98
    (Reach.unmapStep 3
      (Reach.mapStep 1 3 (Reach.init 100 true (by decide))
        (by decide) (by decide) (by decide) (by decide))
      (by decide) (by decide))
    (by decide) (by decide) (by decide) (by decide)

set_option maxRecDepth 1000000 in
/-- C1: on the 1 MiB, 16-block buffer, after sixteen complete
Map(16,65536)/Unmap(65536) rounds the cursor sits at the full capacity
and block 0 holds fence 0, the only fence the second Map call inserted
(the first call inserted none).  The seventeenth Map call takes the
wraparound branch - its returned offset is 0, the cursor is reset to 0
and the ghost wrapped flag flips from false to true - and its recorded
driver calls include a client wait on that block-0 fence before the
call returns. -/
theorem c1_seventeenth_call_wraps_and_waits_block_zero_fence :
    (bigTrace 16).m_position = 1048576 ∧
    (bigTrace 16).m_sync_objects 0 = some 0 ∧
    (BufferStorageStreamBuffer.map (bigTrace 1) 16 65536).2.2 = [GLCall.fenceSync 0] ∧
    (BufferStorageStreamBuffer.map (bigTrace 0) 16 65536).2.2 = [] ∧
    (BufferStorageStreamBuffer.map (bigTrace 16) 16 65536).2.1.buffer_offset = 0 ∧
    (BufferStorageStreamBuffer.map (bigTrace 16) 16 65536).1.m_position = 0 ∧
    (BufferStorageStreamBuffer.map (bigTrace 16) 16 65536).1.wrapped = true ∧
    (bigTrace 16).wrapped = false ∧
    GLCall.clientWaitSync (some 0) ∈
      (BufferStorageStreamBuffer.map (bigTrace 16) 16 65536).2.2 := by
  decide

set_option maxRecDepth 1000000 in
/-- C4: the first Map(16, 4096) on a freshly constructed 1 MiB
persistent-mapped buffer returns offset 0 with 65536 (at least 256)
sixteen-byte elements and issues no driver call at all - in particular
no fence wait and no fence insertion.  In the continued
Map(16,4096)/Unmap(4096) scenario none of the first sixteen calls
issues any driver call; block 0's fence is inserted by the seventeenth
call, once the cursor has passed the end of block 0. -/
theorem c4_first_map_no_wait_fence_deferred :
    (BufferStorageStreamBuffer.map (initState 1048576 true) 16 4096).2.1 =
      ⟨Ptr.gpuMapped 0, 0, 0, 65536⟩ ∧
    256 ≤ (BufferStorageStreamBuffer.map
      (initState 1048576 true) 16 4096).2.1.space_aligned ∧
    (BufferStorageStreamBuffer.map (initState 1048576 true) 16 4096).2.2 = [] ∧
    ((List.range 16).all fun k =>
      (BufferStorageStreamBuffer.map (smallTrace k) 16 4096).2.2 == []) = true ∧
    (smallTrace 16).m_sync_objects 0 = none ∧
    (BufferStorageStreamBuffer.map (smallTrace 16) 16 4096).2.2 =
      [GLCall.fenceSync 0] := by
  decide

set_option maxRecDepth 1000000 in
/-- C3: after two Map(16,65536)/Unmap(65536) rounds on the 1 MiB buffer
- a reachable state - fence 0 is outstanding in block 0, yet the
destructor of SyncingStreamBuffer deletes nothing: its loop runs for i
in [m_available_block_index, m_used_block_index] = [16, 1], an empty
range, so the outstanding fence is leaked, contradicting the spec's
destruction contract. -/
theorem c3_destructor_never_frees_outstanding_fences :
    Reach (bigTrace 2) ∧
    SyncingStreamBuffer.outstandingFences (bigTrace 2) = [0] ∧
    (bigTrace 2).m_available_block_index = 16 ∧
    (bigTrace 2).m_used_block_index = 1 ∧
    (SyncingStreamBuffer.destructorCalls (bigTrace 2)).1 = [] :=
  ⟨reach_bigTrace2, by decide, by decide, by decide, by decide⟩

/-- C6: on a capacity-100 buffer (16 blocks of 7 bytes, capacity not
divisible by the block count), the very first Map(1, 1) returns offset
0 with 112 one-byte elements available: offset + count * alignment =
112 exceeds the capacity 100.  A caller committing the full grant then
violates Unmap's own DebugAssert(m_position + used_size <= m_size),
clearing the ghost ok flag. -/
theorem c6_map_grants_beyond_capacity_when_not_divisible :
    Reach (initState 100 true) ∧
    (initState 100 true).m_size = 100 ∧
    (BufferStorageStreamBuffer.map (initState 100 true) 1 1).2.1 =
      ⟨Ptr.gpuMapped 0, 0, 0, 112⟩ ∧
    100 < 0 + 112 * 1 ∧
    (BufferStorageStreamBuffer.map (initState 100 true) 1 1).1.granted = 112 ∧
    (BufferStorageStreamBuffer.unmap
      (BufferStorageStreamBuffer.map (initState 100 true) 1 1).1 112).1.ok
      = false :=
  ⟨Reach.init 100 true (by decide), by decide, by decide, by decide,
   by decide, by decide⟩

/-- C7: Unmap(0) is a no-op on every backend.  Both naive backends
return early with no driver call and an unchanged state.  The
persistent-mapped backend leaves position, used and available block
indices and the fence array unchanged, issues no upload, and at most
(when non-coherent) binds and flushes an empty byte range. -/
theorem c7_unmap_zero_is_noop : ∀ (nst : NaiveState) (st : SyncState),
    BufferSubDataStreamBuffer.unmap nst 0 = (nst, []) ∧
    BufferDataStreamBuffer.unmap nst 0 = (nst, []) ∧
    (BufferStorageStreamBuffer.unmap st 0).1.m_position = st.m_position ∧
    (BufferStorageStreamBuffer.unmap st 0).1.m_used_block_index =
      st.m_used_block_index ∧
    (BufferStorageStreamBuffer.unmap st 0).1.m_available_block_index =
      st.m_available_block_index ∧
    (BufferStorageStreamBuffer.unmap st 0).1.m_sync_objects = st.m_sync_objects ∧
    (BufferStorageStreamBuffer.unmap st 0).2 =
      (if st.m_coherent then []
       else [GLCall.bindBuffer, GLCall.flushMappedBufferRange st.m_position 0]) ∧
    ((BufferStorageStreamBuffer.unmap st 0).2.all fun c => !c.isUpload) = true := by
  intro nst st
  refine ⟨rfl, rfl, rfl, rfl, rfl, rfl, rfl, ?_⟩
  by_cases h : st.m_coherent <;>
    simp [BufferStorageStreamBuffer.unmap, h, GLCall.isUpload]

/-- C8: for every state and size, Unmap of the persistent-mapped
backend advances position by exactly used_size, flushes exactly the
byte range starting at the old position of length used_size if and
only if the mapping is non-coherent (it binds first), inserts no fence,
and leaves the block indices, the fence array and all remaining fields
unchanged. -/
theorem c8_unmap_advances_position_flushes_iff_noncoherent :
    ∀ (st : SyncState) (used_size : Nat),
    (BufferStorageStreamBuffer.unmap st used_size).1.m_position =
      st.m_position + used_size ∧
    (BufferStorageStreamBuffer.unmap st used_size).1.m_used_block_index =
      st.m_used_block_index ∧
    (BufferStorageStreamBuffer.unmap st used_size).1.m_available_block_index =
      st.m_available_block_index ∧
    (BufferStorageStreamBuffer.unmap st used_size).1.m_sync_objects =
      st.m_sync_objects ∧
    (BufferStorageStreamBuffer.unmap st used_size).1.m_size = st.m_size ∧
    (BufferStorageStreamBuffer.unmap st used_size).1.m_bytes_per_block =
      st.m_bytes_per_block ∧
    (BufferStorageStreamBuffer.unmap st used_size).1.nextFenceId =
      st.nextFenceId ∧
    (BufferStorageStreamBuffer.unmap st used_size).1.wrapped = st.wrapped ∧
    (BufferStorageStreamBuffer.unmap st used_size).2 =
      (if st.m_coherent then []
       else [GLCall.bindBuffer,
             GLCall.flushMappedBufferRange st.m_position used_size]) ∧
    ((BufferStorageStreamBuffer.unmap st used_size).2.all
      fun c => !c.isFence) = true := by
  intro st used_size
  refine ⟨rfl, rfl, rfl, rfl, rfl, rfl, rfl, rfl, rfl, ?_⟩
  by_cases h : st.m_coherent <;>
    simp [BufferStorageStreamBuffer.unmap, h, GLCall.isFence]

/-- C9: both naive backends' Map, in every state and for every
alignment and min_size, returns the staging buffer's start (offset 0,
aligned offset 0) with exactly capacity / alignment contiguous
elements, issues no driver call, and leaves the state unchanged. -/
theorem c9_naive_map_returns_staging_start :
    ∀ (st : NaiveState) (alignment min_size : Nat),
    BufferSubDataStreamBuffer.map st alignment min_size =
      (st, ⟨Ptr.cpuStaging 0, 0, 0, st.m_size / alignment⟩, []) ∧
    BufferDataStreamBuffer.map st alignment min_size =
      (st, ⟨Ptr.cpuStaging 0, 0, 0, st.m_size / alignment⟩, []) := by
  intro st alignment min_size
  exact ⟨rfl, rfl⟩

/-- C5 counterexample: a driver that supports buffer storage and
allocates it successfully but returns a null persistent mapping does
not make construction return an empty result - the
Assert(mapped_ptr) in BufferStorageStreamBuffer::Create aborts, and
the factory never reaches the orphan fallback. -/
theorem c5_counterexample_mapping_failure_aborts :
    BufferStorageStreamBuffer.create
      ⟨true, false, false, true, true, false⟩ 1048576 =
      CreateResult.assertAbort ∧
    StreamBuffer.create ⟨true, false, false, true, true, false⟩ 1048576 =
      CreateResult.assertAbort ∧
    (CreateResult.assertAbort : CreateResult BackendKind) ≠
      CreateResult.empty ∧
    StreamBuffer.create ⟨true, false, false, true, true, false⟩ 1048576 ≠
      CreateResult.ok BackendKind.bufferData := by
  decide

/-- C5 amended: when the driver reports an error from buffer creation
or storage allocation, Create returns an empty result and the factory
falls through to the orphan (BufferData) backend; the naive backends
likewise return empty on a buffer-data error.  A rejected persistent
mapping, however, fires Assert(mapped_ptr) and aborts instead of
falling back. -/
theorem c5_amended_storage_failure_falls_back :
    ∀ (d : GLDriver) (size : Nat),
    ((d.GLAD_GL_VERSION_4_4 || d.GLAD_GL_ARB_buffer_storage
        || d.GLAD_GL_EXT_buffer_storage) = true →
      d.bufferStorageSucceeds = false →
      BufferStorageStreamBuffer.create d size = CreateResult.empty ∧
      StreamBuffer.create d size = BufferDataStreamBuffer.create d size) ∧
    (d.bufferDataSucceeds = false →
      BufferSubDataStreamBuffer.create d size = CreateResult.empty ∧
      BufferDataStreamBuffer.create d size = CreateResult.empty) ∧
    ((d.GLAD_GL_VERSION_4_4 || d.GLAD_GL_ARB_buffer_storage
        || d.GLAD_GL_EXT_buffer_storage) = true →
      d.bufferStorageSucceeds = true → d.mapBufferRangeSucceeds = false →
      StreamBuffer.create d size = CreateResult.assertAbort) := by
  intro d size
  obtain ⟨v, a, e, bd, bs, mp⟩ := d
  cases v <;> cases a <;> cases e <;> cases bs <;> cases mp <;> cases bd <;>
    simp [BufferStorageStreamBuffer.create, StreamBuffer.create,
      BufferDataStreamBuffer.create, BufferSubDataStreamBuffer.create]

/-- C5 witness: instantiating the amended theorem at a storage-failing
driver and at a mapping-failing driver. -/
theorem c5_amended_witness :
    (BufferStorageStreamBuffer.create ⟨true, false, false, true, false, true⟩
        1048576 = CreateResult.empty ∧
     StreamBuffer.create ⟨true, false, false, true, false, true⟩ 1048576 =
      BufferDataStreamBuffer.create ⟨true, false, false, true, false, true⟩
        1048576) ∧
    StreamBuffer.create ⟨true, false, false, true, true, false⟩ 1048576 =
      CreateResult.assertAbort :=
  ⟨(c5_amended_storage_failure_falls_back
      ⟨true, false, false, true, false, true⟩ 1048576).1 (by decide) (by decide),
   (c5_amended_storage_failure_falls_back
      ⟨true, false, false, true, true, false⟩ 1048576).2.2
      (by decide) (by decide) (by decide)⟩

/-- C2 counterexample: the claimed inequality available_block_index <=
used_block_index + 1 is already false in the reachable state produced
by construction alone (available = 16, used = 0 on the 1 MiB buffer);
and in the reachable capacity-100 state cap100Trace the wraparound of
the third call marks blocks available while waiting a null fence
(clientWaitSync none is recorded and ok is cleared), so a block is
marked available whose fence never existed. -/
theorem c2_counterexample_init_and_null_fence_wait :
    Reach (initState 1048576 true) ∧
    ¬((initState 1048576 true).m_available_block_index ≤
      (initState 1048576 true).m_used_block_index + 1) ∧
    Reach cap100Trace ∧
    cap100Trace.ok = false ∧
    GLCall.clientWaitSync none ∈ cap100Events ∧
    cap100Trace.m_available_block_index = 15 :=
  ⟨Reach.init 1048576 true (by decide), by decide, reach_cap100,
   by decide, by decide, by decide⟩

/-- C10 counterexample: in the reachable capacity-100 state cap100Trace
(a wraparound has occurred, used = 0, available = 15) slot 15 holds no
fence although 15 lies in [available_block_index, 16), so the non-null
slots are not exactly [0, used) together with [available, 16). -/
theorem c10_counterexample_slot15_empty :
    Reach cap100Trace ∧
    cap100Trace.wrapped = true ∧
    cap100Trace.m_used_block_index = 0 ∧
    cap100Trace.m_available_block_index = 15 ∧
    cap100Trace.m_sync_objects 15 = none :=
  ⟨reach_cap100, by decide, by decide, by decide, by decide⟩

namespace GLStream

open SyncingStreamBuffer

/-- Rounding up never decreases. -/
theorem le_alignUp (p a : Nat) (ha : 0 < a) : p ≤ Common.alignUp p a := by
  have h1 := Nat.lt_mul_div_succ (p + a - 1) ha
  have h2 : a * ((p + a - 1) / a + 1) = (p + a - 1) / a * a + a := by ring
  unfold Common.alignUp
  omega

/-- Rounding up to a multiple of a stays below any multiple of a that
bounds the input. -/
theorem alignUp_le (p a m : Nat) (ha : 0 < a) (hd : a ∣ m) (h : p ≤ m) :
    Common.alignUp p a ≤ m := by
  obtain ⟨t, rfl⟩ := hd
  unfold Common.alignUp
  have h1 : (p + a - 1) / a ≤ t := by
    have h3 : ((a - 1) + a * t) / a = (a - 1) / a + t := Nat.add_mul_div_left _ _ ha
    have h4 : (a - 1) / a = 0 := Nat.div_eq_of_lt (by omega)
    have h5 : (p + a - 1) / a ≤ ((a - 1) + a * t) / a := Nat.div_le_div_right (by omega)
    omega
  calc (p + a - 1) / a * a ≤ t * a := Nat.mul_le_mul_right a h1
    _ = a * t := Nat.mul_comm _ _

/-- Division bound from a multiple bound. -/
theorem div_le_of_le_mul {p v b : Nat} (hb : 0 < b) (h : p ≤ v * b) : p / b ≤ v := by
  have h2 : p / b ≤ v * b / b := Nat.div_le_div_right h
  rwa [Nat.mul_div_cancel _ hb] at h2

/-- x lies strictly below the next block boundary. -/
theorem lt_div_succ_mul (x b : Nat) (hb : 0 < b) : x < (x / b + 1) * b :=
  calc x < b * (x / b + 1) := Nat.lt_mul_div_succ x hb
    _ = (x / b + 1) * b := Nat.mul_comm _ _

/-- The capacity is at most NUM_SYNC_POINTS blocks. -/
theorem size_le_blocks_mul (size : Nat) : size ≤ (size + 15) / 16 * 16 := by
  have h := le_alignUp size 16 (by omega)
  unfold Common.alignUp at h
  omega

/-- For positive capacity there is at least one byte per block. -/
theorem bpb_pos (size : Nat) (h : 0 < size) : 0 < (size + 15) / 16 :=
  Nat.lt_of_lt_of_le Nat.zero_lt_one ((Nat.one_le_div_iff (by omega)).mpr (by omega))

/-- Each block is at most the capacity long. -/
theorem bpb_le_size (size : Nat) (h : 0 < size) : (size + 15) / 16 ≤ size := by
  have h2 : (size + 15) / 16 ≤ size * 16 / 16 := Nat.div_le_div_right (by omega)
  rwa [Nat.mul_div_cancel _ (by omega)] at h2

/-- For capacities divisible by 16 the rounding in the constructor is
exact: the capacity is exactly 16 blocks. -/
theorem size_eq_blocks_of_dvd (size : Nat) (h : 16 ∣ size) :
    16 * ((size + 15) / 16) = size := by
  obtain ⟨t, rfl⟩ := h
  have h3 : (15 + 16 * t) / 16 = 15 / 16 + t := Nat.add_mul_div_left _ _ (by omega)
  have h4 : (16 * t + 15) = (15 + 16 * t) := by ring
  rw [h4, h3]
  have h5 : (15 : Nat) / 16 = 0 := Nat.div_eq_of_lt (by omega)
  rw [h5]
  ring

end GLStream

namespace GLStream

open SyncingStreamBuffer

/-- One AddSyncsForOffset iteration, written as a record update. -/
theorem addSyncsStep_fst (st : SyncState) :
    (addSyncsStep st).1 = { st with
      m_sync_objects := fun j =>
        if j = st.m_used_block_index then some st.nextFenceId
        else st.m_sync_objects j
      m_used_block_index := st.m_used_block_index + 1
      nextFenceId := st.nextFenceId + 1
      ok := st.ok && decide (st.m_used_block_index < NUM_SYNC_POINTS) &&
        (st.m_sync_objects st.m_used_block_index).isNone } := rfl

/-- One EnsureSyncsWaitedForOffset iteration, written as a record
update. -/
theorem ensureStep_fst (st : SyncState) :
    (ensureStep st).1 = { st with
      m_sync_objects := fun j =>
        if j = st.m_available_block_index then none else st.m_sync_objects j
      m_available_block_index := st.m_available_block_index + 1
      ok := st.ok && decide (st.m_available_block_index < NUM_SYNC_POINTS) &&
        (st.m_sync_objects st.m_available_block_index).isSome } := rfl

/-- Effect of n fence-inserting iterations on every field. -/
theorem addSyncsLoop_spec (n : Nat) : ∀ st : SyncState,
    (addSyncsLoop st n).1.m_size = st.m_size ∧
    (addSyncsLoop st n).1.m_bytes_per_block = st.m_bytes_per_block ∧
    (addSyncsLoop st n).1.m_position = st.m_position ∧
    (addSyncsLoop st n).1.m_available_block_index = st.m_available_block_index ∧
    (addSyncsLoop st n).1.m_coherent = st.m_coherent ∧
    (addSyncsLoop st n).1.wrapped = st.wrapped ∧
    (addSyncsLoop st n).1.granted = st.granted ∧
    (addSyncsLoop st n).1.m_used_block_index = st.m_used_block_index + n ∧
    ∀ i, (addSyncsLoop st n).1.m_sync_objects i =
      (if st.m_used_block_index ≤ i ∧ i < st.m_used_block_index + n
       then some (st.nextFenceId + (i - st.m_used_block_index))
       else st.m_sync_objects i) := by
  induction n with
  | zero =>
    intro st
    refine ⟨rfl, rfl, rfl, rfl, rfl, rfl, rfl, rfl, ?_⟩
    intro i
    rw [if_neg (by omega)]
    rfl
  | succ n ih =>
    intro st
    have he : (addSyncsLoop st (n + 1)).1 = (addSyncsLoop (addSyncsStep st).1 n).1 := rfl
    rw [he]
    obtain ⟨h1, h2, h3, h4, h5, h6, h7, h8, h9⟩ := ih (addSyncsStep st).1
    have hu : (addSyncsStep st).1.m_used_block_index = st.m_used_block_index + 1 := rfl
    refine ⟨h1, h2, h3, h4, h5, h6, h7, by omega, ?_⟩
    intro i
    rw [h9 i]
    simp only [addSyncsStep_fst]
    split_ifs <;> first
      | rfl
      | (congr 1; omega)
      | (exfalso; omega)

/-- Effect of n fence-waiting iterations on every field. -/
theorem ensureLoop_spec (n : Nat) : ∀ st : SyncState,
    (ensureLoop st n).1.m_size = st.m_size ∧
    (ensureLoop st n).1.m_bytes_per_block = st.m_bytes_per_block ∧
    (ensureLoop st n).1.m_position = st.m_position ∧
    (ensureLoop st n).1.m_used_block_index = st.m_used_block_index ∧
    (ensureLoop st n).1.m_coherent = st.m_coherent ∧
    (ensureLoop st n).1.wrapped = st.wrapped ∧
    (ensureLoop st n).1.granted = st.granted ∧
    (ensureLoop st n).1.nextFenceId = st.nextFenceId ∧
    (ensureLoop st n).1.m_available_block_index =
      st.m_available_block_index + n ∧
    ∀ i, (ensureLoop st n).1.m_sync_objects i =
      (if st.m_available_block_index ≤ i ∧ i < st.m_available_block_index + n
       then none
       else st.m_sync_objects i) := by
  induction n with
  | zero =>
    intro st
    refine ⟨rfl, rfl, rfl, rfl, rfl, rfl, rfl, rfl, rfl, ?_⟩
    intro i
    rw [if_neg (by omega)]
    rfl
  | succ n ih =>
    intro st
    have he : (ensureLoop st (n + 1)).1 = (ensureLoop (ensureStep st).1 n).1 := rfl
    rw [he]
    obtain ⟨h1, h2, h3, h4, h5, h6, h7, h8, h9, h10⟩ := ih (ensureStep st).1
    have hv : (ensureStep st).1.m_available_block_index =
      st.m_available_block_index + 1 := rfl
    refine ⟨h1, h2, h3, h4, h5, h6, h7, h8, by omega, ?_⟩
    intro i
    rw [h10 i]
    simp only [ensureStep_fst]
    split_ifs <;> first
      | rfl
      | (exfalso; omega)

/-- The fence-inserting loop keeps ok true when every touched slot is
in bounds and empty. -/
theorem addSyncsLoop_ok (n : Nat) : ∀ st : SyncState, st.ok = true →
    (∀ k, k < n → st.m_used_block_index + k < 16 ∧
      st.m_sync_objects (st.m_used_block_index + k) = none) →
    (addSyncsLoop st n).1.ok = true := by
  induction n with
  | zero => intro st h _; exact h
  | succ n ih =>
    intro st h hk
    have he : (addSyncsLoop st (n + 1)).1 = (addSyncsLoop (addSyncsStep st).1 n).1 := rfl
    rw [he]
    apply ih
    · have h0 := hk 0 (by omega)
      rw [Nat.add_zero] at h0
      simp only [addSyncsStep_fst]
      simp [h, h0.1, h0.2, NUM_SYNC_POINTS]
    · intro k hkn
      have h1 := hk (k + 1) (by omega)
      simp only [addSyncsStep_fst]
      constructor
      · have := h1.1; omega
      · show (if st.m_used_block_index + 1 + k = st.m_used_block_index
          then some st.nextFenceId
          else st.m_sync_objects (st.m_used_block_index + 1 + k)) = none
        rw [if_neg (by omega)]
        have h2 := h1.2
        rw [show st.m_used_block_index + (k + 1) =
          st.m_used_block_index + 1 + k from by omega] at h2
        exact h2

/-- The fence-waiting loop keeps ok true when every waited slot is in
bounds and holds a fence. -/
theorem ensureLoop_ok (n : Nat) : ∀ st : SyncState, st.ok = true →
    (∀ k, k < n → st.m_available_block_index + k < 16 ∧
      (st.m_sync_objects (st.m_available_block_index + k)).isSome = true) →
    (ensureLoop st n).1.ok = true := by
  induction n with
  | zero => intro st h _; exact h
  | succ n ih =>
    intro st h hk
    have he : (ensureLoop st (n + 1)).1 = (ensureLoop (ensureStep st).1 n).1 := rfl
    rw [he]
    apply ih
    · have h0 := hk 0 (by omega)
      rw [Nat.add_zero] at h0
      simp only [ensureStep_fst]
      simp [h, h0.1, h0.2, NUM_SYNC_POINTS]
    · intro k hkn
      have h1 := hk (k + 1) (by omega)
      simp only [ensureStep_fst]
      constructor
      · have := h1.1; omega
      · show ((if st.m_available_block_index + 1 + k = st.m_available_block_index
          then none
          else st.m_sync_objects (st.m_available_block_index + 1 + k))).isSome = true
        rw [if_neg (by omega)]
        have h2 := h1.2
        rw [show st.m_available_block_index + (k + 1) =
          st.m_available_block_index + 1 + k from by omega] at h2
        exact h2

/-- AddSyncsForOffset is the loop run end - used times. -/
theorem addSyncsForOffset_eq (st : SyncState) (off : Nat) :
    addSyncsForOffset st off =
      addSyncsLoop st (off / st.m_bytes_per_block - st.m_used_block_index) := rfl

/-- EnsureSyncsWaitedForOffset is the loop run min(end+1,16) - available
times. -/
theorem ensureSyncsWaitedForOffset_eq (st : SyncState) (off : Nat) :
    ensureSyncsWaitedForOffset st off =
      ensureLoop st
        (min (off / st.m_bytes_per_block + 1) 16 - st.m_available_block_index) := rfl

end GLStream

namespace GLStream

open SyncingStreamBuffer

/-- WaitForSync on a slot, written as a record update. -/
theorem waitForSyncSlot_fst (st : SyncState) (i : Nat) :
    (waitForSyncSlot st i).1 = { st with
      m_sync_objects := fun j => if j = i then none else st.m_sync_objects j
      ok := st.ok && decide (i < NUM_SYNC_POINTS) &&
        (st.m_sync_objects i).isSome } := rfl

/-- Effect of AddSyncsForOffset on every field. -/
theorem addSyncsForOffset_spec (st : SyncState) (off : Nat) :
    (addSyncsForOffset st off).1.m_size = st.m_size ∧
    (addSyncsForOffset st off).1.m_bytes_per_block = st.m_bytes_per_block ∧
    (addSyncsForOffset st off).1.m_position = st.m_position ∧
    (addSyncsForOffset st off).1.m_available_block_index =
      st.m_available_block_index ∧
    (addSyncsForOffset st off).1.m_coherent = st.m_coherent ∧
    (addSyncsForOffset st off).1.wrapped = st.wrapped ∧
    (addSyncsForOffset st off).1.granted = st.granted ∧
    (addSyncsForOffset st off).1.m_used_block_index =
      max st.m_used_block_index (off / st.m_bytes_per_block) ∧
    ∀ i, (addSyncsForOffset st off).1.m_sync_objects i =
      (if st.m_used_block_index ≤ i ∧ i < off / st.m_bytes_per_block
       then some (st.nextFenceId + (i - st.m_used_block_index))
       else st.m_sync_objects i) := by
  rw [addSyncsForOffset_eq]
  obtain ⟨h1, h2, h3, h4, h5, h6, h7, h8, h9⟩ :=
    addSyncsLoop_spec (off / st.m_bytes_per_block - st.m_used_block_index) st
  refine ⟨h1, h2, h3, h4, h5, h6, h7, by omega, ?_⟩
  intro i
  rw [h9 i]
  split_ifs <;> first
    | rfl
    | (congr 1; omega)
    | (exfalso; omega)

/-- Effect of EnsureSyncsWaitedForOffset on every field. -/
theorem ensureSyncsWaitedForOffset_spec (st : SyncState) (off : Nat) :
    (ensureSyncsWaitedForOffset st off).1.m_size = st.m_size ∧
    (ensureSyncsWaitedForOffset st off).1.m_bytes_per_block =
      st.m_bytes_per_block ∧
    (ensureSyncsWaitedForOffset st off).1.m_position = st.m_position ∧
    (ensureSyncsWaitedForOffset st off).1.m_used_block_index =
      st.m_used_block_index ∧
    (ensureSyncsWaitedForOffset st off).1.m_coherent = st.m_coherent ∧
    (ensureSyncsWaitedForOffset st off).1.wrapped = st.wrapped ∧
    (ensureSyncsWaitedForOffset st off).1.granted = st.granted ∧
    (ensureSyncsWaitedForOffset st off).1.nextFenceId = st.nextFenceId ∧
    (ensureSyncsWaitedForOffset st off).1.m_available_block_index =
      max st.m_available_block_index
        (min (off / st.m_bytes_per_block + 1) 16) ∧
    ∀ i, (ensureSyncsWaitedForOffset st off).1.m_sync_objects i =
      (if st.m_available_block_index ≤ i ∧
          i < min (off / st.m_bytes_per_block + 1) 16
       then none
       else st.m_sync_objects i) := by
  rw [ensureSyncsWaitedForOffset_eq]
  obtain ⟨h1, h2, h3, h4, h5, h6, h7, h8, h9, h10⟩ :=
    ensureLoop_spec
      (min (off / st.m_bytes_per_block + 1) 16 - st.m_available_block_index) st
  refine ⟨h1, h2, h3, h4, h5, h6, h7, h8, by omega, ?_⟩
  intro i
  rw [h10 i]
  split_ifs <;> first
    | rfl
    | (exfalso; omega)

/-- AddSyncsForOffset keeps ok true when the filled range is in bounds
and empty. -/
theorem addSyncsForOffset_ok (st : SyncState) (off : Nat) (hok : st.ok = true)
    (h : ∀ k, st.m_used_block_index ≤ k → k < off / st.m_bytes_per_block →
      k < 16 ∧ st.m_sync_objects k = none) :
    (addSyncsForOffset st off).1.ok = true := by
  rw [addSyncsForOffset_eq]
  refine addSyncsLoop_ok _ st hok ?_
  intro k hk
  exact h (st.m_used_block_index + k) (by omega) (by omega)

/-- EnsureSyncsWaitedForOffset keeps ok true when the waited range is
in bounds and fenced. -/
theorem ensureSyncsWaitedForOffset_ok (st : SyncState) (off : Nat)
    (hok : st.ok = true)
    (h : ∀ k, st.m_available_block_index ≤ k →
      k < min (off / st.m_bytes_per_block + 1) 16 →
      k < 16 ∧ (st.m_sync_objects k).isSome = true) :
    (ensureSyncsWaitedForOffset st off).1.ok = true := by
  rw [ensureSyncsWaitedForOffset_eq]
  refine ensureLoop_ok _ st hok ?_
  intro k hk
  exact h (st.m_available_block_index + k) (by omega) (by omega)

end GLStream


namespace GLStream

open SyncingStreamBuffer

set_option maxHeartbeats 1000000 in
/-- Invariant preservation of AllocateSpace.  Hypotheses are the parts
of the ring invariant relevant after the alignment step of Map; the
conclusion gives the preserved index invariant, the free-space bound of
the trailing DebugAssert, and (for capacities divisible by the block
count, assuming the fence-array characterization on entry) preservation
of ok and of the characterization. -/
theorem allocateSpace_inv (st : SyncState) (s : Nat)
    (H1 : 0 < st.m_size)
    (H2 : st.m_bytes_per_block = (st.m_size + 15) / 16)
    (H3 : st.m_used_block_index < st.m_available_block_index)
    (H4 : st.m_available_block_index ≤ 16)
    (H5 : st.wrapped = false → st.m_available_block_index = 16)
    (H6 : st.m_position ≤ st.m_available_block_index * st.m_bytes_per_block)
    (H7 : 0 < s) (H8 : s ≤ st.m_size) :
    (allocateSpace st s).1.m_size = st.m_size ∧
    (allocateSpace st s).1.m_bytes_per_block = st.m_bytes_per_block ∧
    (allocateSpace st s).1.m_coherent = st.m_coherent ∧
    (allocateSpace st s).1.m_used_block_index <
      (allocateSpace st s).1.m_available_block_index ∧
    (allocateSpace st s).1.m_available_block_index ≤ 16 ∧
    ((allocateSpace st s).1.wrapped = false →
      (allocateSpace st s).1.m_available_block_index = 16) ∧
    (allocateSpace st s).1.m_position ≤ st.m_size ∧
    (allocateSpace st s).1.m_position + s ≤
      (allocateSpace st s).1.m_available_block_index * st.m_bytes_per_block ∧
    (16 ∣ st.m_size → st.ok = true →
      (∀ i, i < 16 → ((st.m_sync_objects i).isSome = true ↔
        (i < st.m_used_block_index ∨
         (st.wrapped = true ∧ st.m_available_block_index ≤ i)))) →
      ((allocateSpace st s).1.ok = true ∧
       ∀ i, i < 16 → (((allocateSpace st s).1.m_sync_objects i).isSome = true ↔
        (i < (allocateSpace st s).1.m_used_block_index ∨
         ((allocateSpace st s).1.wrapped = true ∧
          (allocateSpace st s).1.m_available_block_index ≤ i))))) := by
  have hb : 0 < st.m_bytes_per_block := by rw [H2]; exact bpb_pos _ H1
  have hble : st.m_bytes_per_block ≤ st.m_size := by rw [H2]; exact bpb_le_size _ H1
  have hcap16 : st.m_size ≤ 16 * st.m_bytes_per_block := by
    have h := size_le_blocks_mul st.m_size
    rw [H2]; omega
  have hP1v : st.m_position / st.m_bytes_per_block ≤ st.m_available_block_index :=
    div_le_of_le_mul hb H6
  have hP12 : st.m_position / st.m_bytes_per_block ≤
      (st.m_position + s) / st.m_bytes_per_block :=
    Nat.div_le_div_right (by omega)
  obtain ⟨A1, A2, A3, A4, A5, A6, A7, A8, A9⟩ :=
    addSyncsForOffset_spec st st.m_position
  set A := (addSyncsForOffset st st.m_position).1 with hA
  obtain ⟨E1, E2, E3, E4, E5, E6, E7, E8, E9, E10⟩ :=
    ensureSyncsWaitedForOffset_spec A (A.m_position + s)
  set E := (ensureSyncsWaitedForOffset A (A.m_position + s)).1 with hEdef
  rw [A1] at E1
  rw [A2] at E2
  rw [A3] at E3
  rw [A8] at E4
  rw [A5] at E5
  rw [A6] at E6
  rw [A7] at E7
  rw [A4, A3, A2] at E9
  rw [A4, A3, A2] at E10
  by_cases hw : E.m_position + s > E.m_size
  · -- wraparound branch
    have hwst : st.m_size < st.m_position + s := by rw [E3, E1] at hw; omega
    simp only [allocateSpace]
    rw [← hA, ← hEdef, if_pos hw]
    obtain ⟨B1, B2, B3, B4, B5, B6, B7, B8, B9⟩ :=
      addSyncsForOffset_spec E E.m_size
    set W1 := (addSyncsForOffset E E.m_size).1 with hW1def
    rw [E1] at B1
    rw [E2] at B2
    rw [E3] at B3
    rw [E5] at B5
    rw [E4, E1, E2] at B8
    rw [E4, E1, E2] at B9
    set W4 : SyncState := { (waitForSyncSlot { W1 with m_position := 0 } 0).1
      with m_available_block_index := 1, wrapped := true } with hW4def
    obtain ⟨C1, C2, C3, C4, C5, C6, C7, C8, C9, C10⟩ :=
      ensureSyncsWaitedForOffset_spec W4 s
    set W5 := (ensureSyncsWaitedForOffset W4 s).1 with hW5def
    have hW4avail : W4.m_available_block_index = 1 := by
      simp only [hW4def, waitForSyncSlot_fst]
    have hW4wr : W4.wrapped = true := by
      simp only [hW4def, waitForSyncSlot_fst]
    have hW4pos : W4.m_position = 0 := by
      simp only [hW4def, waitForSyncSlot_fst]
    have hW4size : W4.m_size = st.m_size := by
      simp only [hW4def, waitForSyncSlot_fst]; exact B1
    have hW4bpb : W4.m_bytes_per_block = st.m_bytes_per_block := by
      simp only [hW4def, waitForSyncSlot_fst]; exact B2
    have hW4coh : W4.m_coherent = st.m_coherent := by
      simp only [hW4def, waitForSyncSlot_fst]; exact B5
    have hW4used : W4.m_used_block_index = W1.m_used_block_index := by
      simp only [hW4def, waitForSyncSlot_fst]
    have hW4slots : ∀ i, W4.m_sync_objects i =
        (if i = 0 then none else W1.m_sync_objects i) := by
      intro i; simp only [hW4def, waitForSyncSlot_fst]
    have hW4ok : W4.ok = (W1.ok && decide (0 < NUM_SYNC_POINTS) &&
        (W1.m_sync_objects 0).isSome) := by
      simp only [hW4def, waitForSyncSlot_fst]
    rw [hW4size] at C1
    rw [hW4bpb] at C2
    rw [hW4pos] at C3
    rw [hW4coh] at C5
    rw [hW4wr] at C6
    rw [hW4avail, hW4bpb] at C9
    rw [hW4avail, hW4bpb] at C10
    refine ⟨C1, C2, C5, ?_, ?_, ?_, ?_, ?_, ?_⟩
    · show 0 < W5.m_available_block_index
      rw [C9]; omega
    · show W5.m_available_block_index ≤ 16
      rw [C9]; omega
    · show W5.wrapped = false → W5.m_available_block_index = 16
      rw [C6]
      intro hco
      simp at hco
    · show W5.m_position ≤ st.m_size
      rw [C3]; omega
    · show W5.m_position + s ≤ W5.m_available_block_index * st.m_bytes_per_block
      rw [C3, C9]
      have hx := lt_div_succ_mul s st.m_bytes_per_block hb
      by_cases hm2 : s / st.m_bytes_per_block + 1 ≤ 16
      · have h2 : s / st.m_bytes_per_block + 1 ≤
          max 1 (min (s / st.m_bytes_per_block + 1) 16) := by omega
        have h3 := Nat.mul_le_mul_right st.m_bytes_per_block h2
        omega
      · have h2 : max 1 (min (s / st.m_bytes_per_block + 1) 16) = 16 := by omega
        rw [h2]; omega
    · intro h16 hok hchar
      have charNone : ∀ k, k < 16 →
          ¬(k < st.m_used_block_index ∨
            (st.wrapped = true ∧ st.m_available_block_index ≤ k)) →
          st.m_sync_objects k = none := by
        intro k hk hcond
        rw [← Option.not_isSome_iff_eq_none]
        intro hs
        exact hcond ((hchar k hk).mp (by simpa using hs))
      have hAok : A.ok = true := by
        rw [hA]
        refine addSyncsForOffset_ok st st.m_position hok ?_
        intro k hk1 hk2
        refine ⟨by omega, charNone k (by omega) ?_⟩
        rintro (h | ⟨hwr, hvk⟩) <;> omega
      have hEok : E.ok = true := by
        rw [hEdef]
        refine ensureSyncsWaitedForOffset_ok A (A.m_position + s) hAok ?_
        intro k hk1 hk2
        rw [A4] at hk1
        rw [A3, A2] at hk2
        refine ⟨by omega, ?_⟩
        rw [A9]
        rw [if_neg (by omega)]
        refine (hchar k (by omega)).mpr ?_
        rcases Bool.eq_false_or_eq_true st.wrapped with hwr | hwr
        · right; exact ⟨hwr, by omega⟩
        · have := H5 hwr; omega
      have hcapeq : 16 * st.m_bytes_per_block = st.m_size := by
        rw [H2]; exact size_eq_blocks_of_dvd _ h16
      have hP3 : st.m_size / st.m_bytes_per_block = 16 := by
        rw [← hcapeq, Nat.mul_comm 16 st.m_bytes_per_block,
          Nat.mul_div_cancel_left _ hb]
      have hdiv : st.m_size / st.m_bytes_per_block ≤
          (st.m_position + s) / st.m_bytes_per_block :=
        Nat.div_le_div_right (by omega)
      have hW1all : ∀ i, i < 16 → (W1.m_sync_objects i).isSome = true := by
        intro i hi
        rw [B9 i]
        by_cases hcB : max st.m_used_block_index
            (st.m_position / st.m_bytes_per_block) ≤ i ∧
            i < st.m_size / st.m_bytes_per_block
        · rw [if_pos hcB]; rfl
        · rw [if_neg hcB]
          rw [E10 i]
          rw [if_neg (by omega)]
          rw [A9 i]
          by_cases hcA : st.m_used_block_index ≤ i ∧
              i < st.m_position / st.m_bytes_per_block
          · rw [if_pos hcA]; rfl
          · rw [if_neg hcA]
            refine (hchar i hi).mpr (Or.inl ?_)
            omega
      have hW1ok : W1.ok = true := by
        rw [hW1def]
        refine addSyncsForOffset_ok E E.m_size hEok ?_
        intro k hk1 hk2
        rw [E4] at hk1
        rw [E1, E2, hP3] at hk2
        refine ⟨by omega, ?_⟩
        rw [E10 k]
        by_cases hcE : st.m_available_block_index ≤ k ∧
            k < min ((st.m_position + s) / st.m_bytes_per_block + 1) 16
        · rw [if_pos hcE]
        · rw [if_neg hcE, A9 k]
          rw [if_neg (by omega)]
          apply charNone k (by omega)
          rintro (h | ⟨h1, h2⟩)
          · omega
          · omega
      have hW5ok : W5.ok = true := by
        rw [hW5def]
        refine ensureSyncsWaitedForOffset_ok W4 s ?_ ?_
        · rw [hW4ok, hW1ok, hW1all 0 (by omega)]
          rfl
        · intro k hk1 hk2
          rw [hW4avail] at hk1
          rw [hW4bpb] at hk2
          refine ⟨by omega, ?_⟩
          rw [hW4slots k, if_neg (by omega)]
          exact hW1all k (by omega)
      refine ⟨hW5ok, ?_⟩
      intro i hi
      show (W5.m_sync_objects i).isSome = true ↔
        (i < 0 ∨ (W5.wrapped = true ∧ W5.m_available_block_index ≤ i))
      rw [C10 i, C6, C9]
      by_cases hcC : 1 ≤ i ∧ i < min (s / st.m_bytes_per_block + 1) 16
      · rw [if_pos hcC]
        simp only [Option.isSome_none]
        constructor
        · intro hx; exact (Bool.false_ne_true hx).elim
        · rintro (h | ⟨h1, h2⟩)
          · omega
          · exfalso; omega
      · rw [if_neg hcC, hW4slots i]
        by_cases h0 : i = 0
        · subst h0
          rw [if_pos rfl]
          simp only [Option.isSome_none]
          constructor
          · intro hx; exact (Bool.false_ne_true hx).elim
          · rintro (h | ⟨h1, h2⟩)
            · omega
            · exfalso; omega
        · rw [if_neg h0]
          rw [hW1all i hi]
          constructor
          · intro hx
            right
            exact ⟨rfl, by omega⟩
          · intro hx
            rfl
  · -- no-wrap branch
    have hle : st.m_position + s ≤ st.m_size := by rw [E3, E1] at hw; omega
    have hP1lt : st.m_position / st.m_bytes_per_block < 16 := by
      have h2 := (Nat.div_lt_iff_lt_mul hb).mpr (by omega :
        st.m_position < 16 * st.m_bytes_per_block)
      omega
    simp only [allocateSpace]
    rw [← hA, ← hEdef, if_neg hw]
    refine ⟨E1, E2, E5, ?_, ?_, ?_, ?_, ?_, ?_⟩
    · rw [E4, E9]; omega
    · rw [E9]; omega
    · rw [E6, E9]; intro hwr; have := H5 hwr; omega
    · rw [E3]; omega
    · rw [E3, E9]
      have hx := lt_div_succ_mul (st.m_position + s) st.m_bytes_per_block hb
      by_cases hm : (st.m_position + s) / st.m_bytes_per_block + 1 ≤ 16
      · have h2 : (st.m_position + s) / st.m_bytes_per_block + 1 ≤
          max st.m_available_block_index
            (min ((st.m_position + s) / st.m_bytes_per_block + 1) 16) := by omega
        calc st.m_position + s
            ≤ ((st.m_position + s) / st.m_bytes_per_block + 1) *
              st.m_bytes_per_block := by omega
          _ ≤ max st.m_available_block_index
                (min ((st.m_position + s) / st.m_bytes_per_block + 1) 16) *
              st.m_bytes_per_block := Nat.mul_le_mul_right _ h2
      · have h2 : max st.m_available_block_index
            (min ((st.m_position + s) / st.m_bytes_per_block + 1) 16) = 16 := by
          omega
        rw [h2]; omega
    · intro h16 hok hchar
      have charNone : ∀ k, k < 16 →
          ¬(k < st.m_used_block_index ∨
            (st.wrapped = true ∧ st.m_available_block_index ≤ k)) →
          st.m_sync_objects k = none := by
        intro k hk hcond
        rw [← Option.not_isSome_iff_eq_none]
        intro hs
        exact hcond ((hchar k hk).mp (by simpa using hs))
      have hAok : A.ok = true := by
        rw [hA]
        refine addSyncsForOffset_ok st st.m_position hok ?_
        intro k hk1 hk2
        refine ⟨by omega, charNone k (by omega) ?_⟩
        rintro (h | ⟨hwr, hvk⟩) <;> omega
      have hEok : E.ok = true := by
        rw [hEdef]
        refine ensureSyncsWaitedForOffset_ok A (A.m_position + s) hAok ?_
        intro k hk1 hk2
        rw [A4] at hk1
        rw [A3, A2] at hk2
        refine ⟨by omega, ?_⟩
        rw [A9]
        rw [if_neg (by omega)]
        refine (hchar k (by omega)).mpr ?_
        rcases Bool.eq_false_or_eq_true st.wrapped with hwr | hwr
        · right; exact ⟨hwr, by omega⟩
        · have := H5 hwr; omega
      refine ⟨hEok, ?_⟩
      intro i hi
      rw [E10 i, E4, E6, E9]
      by_cases hc1 : st.m_available_block_index ≤ i ∧
          i < min ((st.m_position + s) / st.m_bytes_per_block + 1) 16
      · rw [if_pos hc1]
        simp only [Option.isSome_none, Bool.false_eq_true, false_iff]
        rintro (h | ⟨hwr, hvk⟩) <;> omega
      · rw [if_neg hc1, A9]
        by_cases hc2 : st.m_used_block_index ≤ i ∧
            i < st.m_position / st.m_bytes_per_block
        · rw [if_pos hc2]
          simp only [Option.isSome_some, true_iff]
          left; omega
        · rw [if_neg hc2]
          rw [hchar i hi]
          rcases Bool.eq_false_or_eq_true st.wrapped with hwr | hwr
          · constructor
            · rintro (h | ⟨h1, h2⟩)
              · left; omega
              · right; exact ⟨h1, by omega⟩
            · rintro (h | ⟨h1, h2⟩)
              · left; omega
              · right; exact ⟨h1, by omega⟩
          · have hv16 := H5 hwr
            constructor
            · rintro (h | ⟨h1, h2⟩)
              · left; omega
              · rw [hwr] at h1
                exact (Bool.false_ne_true h1).elim
            · rintro (h | ⟨h1, h2⟩)
              · left; omega
              · rw [hwr] at h1
                exact (Bool.false_ne_true h1).elim

end GLStream

namespace GLStream

open SyncingStreamBuffer

/-- Map preserves the ring invariant; for 16-divisible capacities it
also preserves the fence-array characterization and ok. -/
theorem map_preserves (st : SyncState) (a s : Nat)
    (hInv : InvBase st) (ha : 0 < a) (hd : a ∣ st.m_bytes_per_block)
    (hs1 : 0 < s) (hs2 : s ≤ st.m_size) :
    (BufferStorageStreamBuffer.map st a s).1.m_size = st.m_size ∧
    InvBase (BufferStorageStreamBuffer.map st a s).1 ∧
    (16 ∣ st.m_size → SlotInv st →
      SlotInv (BufferStorageStreamBuffer.map st a s).1) := by
  obtain ⟨I1, I2, I3, I4, I5, I6, I7⟩ := hInv
  simp only [NUM_SYNC_POINTS] at I2 I4 I5
  have hb : 0 < st.m_bytes_per_block := by
    have := bpb_pos st.m_size I1
    omega
  set st0 := (if st.m_position > 0 then
    { st with m_position := Common.alignUp st.m_position a } else st) with hst0
  have h0size : st0.m_size = st.m_size := by rw [hst0]; split <;> rfl
  have h0bpb : st0.m_bytes_per_block = st.m_bytes_per_block := by
    rw [hst0]; split <;> rfl
  have h0used : st0.m_used_block_index = st.m_used_block_index := by
    rw [hst0]; split <;> rfl
  have h0avail : st0.m_available_block_index = st.m_available_block_index := by
    rw [hst0]; split <;> rfl
  have h0wr : st0.wrapped = st.wrapped := by rw [hst0]; split <;> rfl
  have h0ok : st0.ok = st.ok := by rw [hst0]; split <;> rfl
  have h0slots : st0.m_sync_objects = st.m_sync_objects := by
    rw [hst0]; split <;> rfl
  have h0pos : st0.m_position ≤
      st.m_available_block_index * st.m_bytes_per_block := by
    rw [hst0]; split
    · exact alignUp_le _ _ _ ha (hd.mul_left _) (by omega)
    · show st.m_position ≤ _
      omega
  obtain ⟨R1, R2, R3, R4, R5, R6, R7, R8, R9⟩ :=
    allocateSpace_inv st0 s (by rw [h0size]; exact I1)
      (by rw [h0bpb, h0size]; omega)
      (by rw [h0used, h0avail]; exact I3)
      (by rw [h0avail]; omega)
      (by rw [h0wr, h0avail]; exact I5)
      (by rw [h0avail, h0bpb]; exact h0pos)
      hs1 (by rw [h0size]; exact hs2)
  simp only [BufferStorageStreamBuffer.map]
  rw [← hst0]
  set R := (allocateSpace st0 s).1 with hR
  have hps : R.m_position + s ≤
      R.m_available_block_index * R.m_bytes_per_block := by
    have h := R8
    rw [← R2] at h
    exact h
  refine ⟨R1.trans h0size, ?_, ?_⟩
  · unfold InvBase
    simp only [NUM_SYNC_POINTS]
    refine ⟨?_, ?_, ?_, ?_, ?_, ?_, ?_⟩
    · show 0 < R.m_size
      rw [R1, h0size]; exact I1
    · show R.m_bytes_per_block = (R.m_size + 16 - 1) / 16
      rw [R2, h0bpb, R1, h0size]
      omega
    · show R.m_used_block_index < R.m_available_block_index
      exact R4
    · show R.m_available_block_index ≤ 16
      exact R5
    · show R.wrapped = false → R.m_available_block_index = 16
      exact R6
    · show R.m_position ≤ R.m_size
      rw [R1]
      exact R7
    · show R.m_position +
        (R.m_available_block_index * R.m_bytes_per_block - R.m_position)
          / a * a ≤ R.m_available_block_index * R.m_bytes_per_block
      have hg := Nat.div_mul_le_self
        (R.m_available_block_index * R.m_bytes_per_block - R.m_position) a
      omega
  · intro h16 hS
    obtain ⟨hSok, hSchar⟩ := hS
    have h16s : 16 ∣ st0.m_size := by rw [h0size]; exact h16
    have hchar0 : ∀ i, i < 16 → ((st0.m_sync_objects i).isSome = true ↔
        (i < st0.m_used_block_index ∨
         (st0.wrapped = true ∧ st0.m_available_block_index ≤ i))) := by
      intro i hi
      rw [h0slots, h0used, h0wr, h0avail]
      exact hSchar i hi
    obtain ⟨hRok, hRchar⟩ := R9 h16s (by rw [h0ok]; exact hSok) hchar0
    unfold SlotInv
    refine ⟨?_, ?_⟩
    · show (R.ok && decide (R.m_position + s ≤
        R.m_available_block_index * R.m_bytes_per_block)) = true
      rw [hRok]
      simp [hps]
    · intro i hi
      show (R.m_sync_objects i).isSome = true ↔
        (i < R.m_used_block_index ∨
         (R.wrapped = true ∧ R.m_available_block_index ≤ i))
      exact hRchar i hi

/-- Unmap preserves the ring invariant and (given the caller contract,
reflected in the Reach preconditions) the fence-array
characterization. -/
theorem unmap_preserves (st : SyncState) (u : Nat)
    (hInv : InvBase st) (hu : u ≤ st.granted)
    (hpos : st.m_position + u ≤ st.m_size) :
    (BufferStorageStreamBuffer.unmap st u).1.m_size = st.m_size ∧
    InvBase (BufferStorageStreamBuffer.unmap st u).1 ∧
    (16 ∣ st.m_size → SlotInv st →
      SlotInv (BufferStorageStreamBuffer.unmap st u).1) := by
  obtain ⟨I1, I2, I3, I4, I5, I6, I7⟩ := hInv
  refine ⟨rfl, ?_, ?_⟩
  · unfold InvBase
    refine ⟨I1, I2, I3, I4, I5, ?_, ?_⟩
    · show st.m_position + u ≤ st.m_size
      exact hpos
    · show st.m_position + u + (st.granted - u) ≤
        st.m_available_block_index * st.m_bytes_per_block
      omega
  · intro h16 hS
    obtain ⟨hSok, hSchar⟩ := hS
    unfold SlotInv
    refine ⟨?_, ?_⟩
    · show (st.ok && decide (st.m_position + u ≤ st.m_size)) = true
      rw [hSok]
      simp [hpos]
    · intro i hi
      exact hSchar i hi

/-- Master invariant: every reachable state satisfies the index
invariant, and for capacities divisible by the 16 blocks also the
fence-array characterization with all asserts intact. -/
theorem reach_invariant : ∀ {st : SyncState}, Reach st →
    InvBase st ∧ (16 ∣ st.m_size → SlotInv st) := by
  intro st h
  induction h with
  | init size coherent hpos =>
    constructor
    · unfold InvBase
      simp only [initState, NUM_SYNC_POINTS]
      refine ⟨hpos, ?_, ?_, ?_, ?_, ?_, ?_⟩ <;>
        first
          | trivial
          | omega
          | exact fun _ => rfl
    · intro _
      unfold SlotInv
      refine ⟨rfl, ?_⟩
      intro i hi
      simp only [initState, Option.isSome_none]
      constructor
      · intro hx
        exact (Bool.false_ne_true hx).elim
      · rintro (hx | ⟨hx, _⟩)
        · omega
        · exact (Bool.false_ne_true hx).elim
  | mapStep a s hr ha hd hs1 hs2 ih =>
    obtain ⟨ihB, ihS⟩ := ih
    obtain ⟨hsize, hB, hS⟩ := map_preserves _ a s ihB ha hd hs1 hs2
    refine ⟨hB, fun h16 => hS (by rwa [hsize] at h16) (ihS (by rwa [hsize] at h16))⟩
  | unmapStep u hr hu hpos ih =>
    obtain ⟨ihB, ihS⟩ := ih
    obtain ⟨hsize, hB, hS⟩ := unmap_preserves _ u ihB hu hpos
    refine ⟨hB, fun h16 => hS (by rwa [hsize] at h16) (ihS (by rwa [hsize] at h16))⟩

end GLStream

open GLStream

/-- C2 amended: in every reachable state of the ring-buffer backend the
reverse inequality holds, available_block_index is at least
used_block_index + 1 (construction starts with all 16 blocks available
and no fences); and for capacities divisible by the 16 blocks the ghost
ok flag stays true, certifying that every advance of
available_block_index went through WaitForSync on a present, in-bounds
fence - a block is marked available only after its fence exists and has
been waited on. -/
theorem c2_amended_invariant : ∀ st : SyncState, Reach st →
    st.m_used_block_index + 1 ≤ st.m_available_block_index ∧
    (16 ∣ st.m_size → st.ok = true) := by
  intro st h
  obtain ⟨hB, hS⟩ := reach_invariant h
  refine ⟨?_, ?_⟩
  · have h3 := hB.2.2.1
    omega
  · intro h16
    exact (hS h16).1

/-- C2 witness: the amended invariant instantiated at the freshly
constructed 1 MiB buffer. -/
theorem c2_amended_invariant_witness :
    (initState 1048576 true).m_used_block_index + 1 ≤
      (initState 1048576 true).m_available_block_index ∧
    (initState 1048576 true).ok = true :=
  ⟨(c2_amended_invariant _ (Reach.init 1048576 true (by decide))).1,
   (c2_amended_invariant _ (Reach.init 1048576 true (by decide))).2 (by decide)⟩

/-- C10 amended: for capacities divisible by the 16-block count, every
reachable state satisfies available_block_index >= used_block_index + 1,
available_block_index <= 16, and the non-null fence slots are exactly
[0, used_block_index) together with [available_block_index, 16) once a
wraparound has occurred (before the first wraparound
available_block_index is 16, so that union is just
[0, used_block_index)). -/
theorem c10_amended_invariant : ∀ st : SyncState, Reach st → 16 ∣ st.m_size →
    st.m_used_block_index + 1 ≤ st.m_available_block_index ∧
    st.m_available_block_index ≤ 16 ∧
    ∀ i, i < 16 →
      ((st.m_sync_objects i).isSome = true ↔
        (i < st.m_used_block_index ∨
         (st.wrapped = true ∧ st.m_available_block_index ≤ i))) := by
  intro st h h16
  obtain ⟨hB, hS⟩ := reach_invariant h
  obtain ⟨hok, hchar⟩ := hS h16
  refine ⟨?_, ?_, ?_⟩
  · have h3 := hB.2.2.1
    omega
  · exact hB.2.2.2.1
  · intro i hi
    exact hchar i hi

/-- C10 witness: the amended invariant instantiated at the freshly
constructed 1 MiB buffer, with the slot characterization read off at
block 0. -/
theorem c10_amended_invariant_witness :
    (initState 1048576 true).m_used_block_index + 1 ≤
      (initState 1048576 true).m_available_block_index ∧
    (initState 1048576 true).m_available_block_index ≤ 16 ∧
    (((initState 1048576 true).m_sync_objects 0).isSome = true ↔
      (0 < (initState 1048576 true).m_used_block_index ∨
       ((initState 1048576 true).wrapped = true ∧
        (initState 1048576 true).m_available_block_index ≤ 0))) :=
  ⟨(c10_amended_invariant _ (Reach.init 1048576 true (by decide)) (by decide)).1,
   (c10_amended_invariant _ (Reach.init 1048576 true (by decide)) (by decide)).2.1,
   (c10_amended_invariant _ (Reach.init 1048576 true (by decide)) (by decide)).2.2
     0 (by decide)⟩
